import Mathlib

/-!
Shallow embedding of the PEDL layout engine (`src/pedl/layout.py`).

A `Node` is either a leaf `Widget` or one of the three layout containers
(`HBoxLayout`, `VBoxLayout`, `StackedLayout`).  Layout geometry is *derived*
from the children, exactly as in the Python getters `Layout.x/y/w/h`.
The geometry primitive (`widget.py`) and the attribute framework
(`utils.pedlproperty`) are not part of `src/`; the definitions embedding them
are modelled from the spec and say so in their doc comments.
-/

/-- Modelled from the spec: `AlignmentChoice` is the enumeration
{Top, Bottom, Left, Right, Center} (`choices.py` is not under `src/`). -/
inductive AlignmentChoice where
  | top
  | bottom
  | left
  | right
  | center
deriving DecidableEq

/-- Modelled from the spec: a `Widget` is a leaf geometry primitive with an
integer anchor `(x, y)` and integer size `(w, h)` (`widget.py` is not under
`src/`). -/
structure Widget where
  x : Int
  y : Int
  w : Int
  h : Int
deriving DecidableEq

/-- The error classes raised by the layout code: `TypeError` from the
`isinstance` checks, `ValueError` from the empty-layout and non-zero-spacing
guards, `IndexError` from `self.widgets[0]` on an empty list. -/
inductive PedlError where
  | typeError
  | valueError
  | indexError
deriving DecidableEq

mutual
/-- The tree of PEDL objects: a widget leaf or a layout container with its
`spacing` / `alignment` attributes and ordered child list (`Layout.widgets`). -/
inductive Node where
  | widget (wg : Widget)
  | hbox (spacing : Int) (alignment : AlignmentChoice) (children : NodeList)
  | vbox (spacing : Int) (alignment : AlignmentChoice) (children : NodeList)
  | stacked (alignment : List AlignmentChoice) (children : NodeList)

/-- The `widgets` list of a layout, as a mutually inductive list so that
structural recursion over the tree is available. -/
inductive NodeList where
  | nil
  | cons (head : Node) (tail : NodeList)
end

mutual
def Node.beq : Node → Node → Bool
  | .widget a, .widget b => a == b
  | .hbox s a cs, .hbox s' a' cs' => s == s' && a == a' && NodeList.beq cs cs'
  | .vbox s a cs, .vbox s' a' cs' => s == s' && a == a' && NodeList.beq cs cs'
  | .stacked a cs, .stacked a' cs' => a == a' && NodeList.beq cs cs'
  | _, _ => false

def NodeList.beq : NodeList → NodeList → Bool
  | .nil, .nil => true
  | .cons n r, .cons n' r' => Node.beq n n' && NodeList.beq r r'
  | _, _ => false
end

/-- Append on `NodeList` (used to model the in-place traversal of
`self.widgets` inside the shuffle loops). -/
def NodeList.append : NodeList → NodeList → NodeList
  | .nil, l => l
  | .cons n r, l => .cons n (NodeList.append r l)

def NodeList.length : NodeList → Nat
  | .nil => 0
  | .cons _ r => r.length + 1

def NodeList.map (f : Node → Node) : NodeList → NodeList
  | .nil => .nil
  | .cons n r => .cons (f n) (NodeList.map f r)

mutual
/-- `x` of a PEDL object: a widget's stored anchor, or for a layout the
derived getter `Layout.x` — `0` with no children, else the minimum child `x`. -/
def Node.x : Node → Int
  | .widget wg => wg.x
  | .hbox _ _ cs => minXD cs
  | .vbox _ _ cs => minXD cs
  | .stacked _ cs => minXD cs

/-- `min([w.x for w in widgets])`, with the empty-list guard returning `0`. -/
def minXD : NodeList → Int
  | .nil => 0
  | .cons n .nil => Node.x n
  | .cons n r => min (Node.x n) (minXD r)
end

mutual
/-- `y` of a PEDL object: stored for widgets, derived (`Layout.y`) for
layouts. -/
def Node.y : Node → Int
  | .widget wg => wg.y
  | .hbox _ _ cs => minYD cs
  | .vbox _ _ cs => minYD cs
  | .stacked _ cs => minYD cs

/-- `min([w.y for w in widgets])`, with the empty-list guard returning `0`. -/
def minYD : NodeList → Int
  | .nil => 0
  | .cons n .nil => Node.y n
  | .cons n r => min (Node.y n) (minYD r)
end

mutual
/-- `w` of a PEDL object: stored for widgets; for a layout the derived getter
`Layout.w` — `0` with no children, else `max(child.right) - self.x`. -/
def Node.w : Node → Int
  | .widget wg => wg.w
  | .hbox _ _ cs => match cs with
      | .nil => 0
      | .cons n r => maxRightD (.cons n r) - minXD (.cons n r)
  | .vbox _ _ cs => match cs with
      | .nil => 0
      | .cons n r => maxRightD (.cons n r) - minXD (.cons n r)
  | .stacked _ cs => match cs with
      | .nil => 0
      | .cons n r => maxRightD (.cons n r) - minXD (.cons n r)

/-- `max([w.right for w in widgets])` where `right = x + w`. -/
def maxRightD : NodeList → Int
  | .nil => 0
  | .cons n .nil => Node.x n + Node.w n
  | .cons n r => max (Node.x n + Node.w n) (maxRightD r)
end

mutual
/-- `h` of a PEDL object: stored for widgets; for a layout the derived getter
`Layout.h` — `0` with no children, else `max(child.bottom) - self.y`. -/
def Node.h : Node → Int
  | .widget wg => wg.h
  | .hbox _ _ cs => match cs with
      | .nil => 0
      | .cons n r => maxBottomD (.cons n r) - minYD (.cons n r)
  | .vbox _ _ cs => match cs with
      | .nil => 0
      | .cons n r => maxBottomD (.cons n r) - minYD (.cons n r)
  | .stacked _ cs => match cs with
      | .nil => 0
      | .cons n r => maxBottomD (.cons n r) - minYD (.cons n r)

/-- `max([w.bottom for w in widgets])` where `bottom = y + h`. -/
def maxBottomD : NodeList → Int
  | .nil => 0
  | .cons n .nil => Node.y n + Node.h n
  | .cons n r => max (Node.y n + Node.h n) (maxBottomD r)
end

/-- Modelled from the spec: derived accessor `right = x + w`. -/
def Node.right (n : Node) : Int := n.x + n.w

/-- Modelled from the spec: derived accessor `bottom = y + h`. -/
def Node.bottom (n : Node) : Int := n.y + n.h

/-- Modelled from the spec: first coordinate of `center = (x + w/2, y + h/2)`,
with integer halving. -/
def Node.centerX (n : Node) : Int := n.x + n.w / 2

/-- Modelled from the spec: second coordinate of `center`. -/
def Node.centerY (n : Node) : Int := n.y + n.h / 2

mutual
/-- The `x` setter: a widget stores the new anchor; a layout (`Layout.x`
setter) shifts every child by `x - self.x`, doing nothing with no children. -/
def Node.setX : Int → Node → Node
  | v, .widget wg => .widget { wg with x := v }
  | v, .hbox s a cs => .hbox s a (shiftX (v - minXD cs) cs)
  | v, .vbox s a cs => .vbox s a (shiftX (v - minXD cs) cs)
  | v, .stacked al cs => .stacked al (shiftX (v - minXD cs) cs)

/-- The body of the `Layout.x` setter loop: `w.x += shift` for every child. -/
def shiftX : Int → NodeList → NodeList
  | _, .nil => .nil
  | d, .cons n r => .cons (Node.setX (Node.x n + d) n) (shiftX d r)
end

mutual
/-- The `y` setter, symmetric to `Node.setX`. -/
def Node.setY : Int → Node → Node
  | v, .widget wg => .widget { wg with y := v }
  | v, .hbox s a cs => .hbox s a (shiftY (v - minYD cs) cs)
  | v, .vbox s a cs => .vbox s a (shiftY (v - minYD cs) cs)
  | v, .stacked al cs => .stacked al (shiftY (v - minYD cs) cs)

/-- The body of the `Layout.y` setter loop: `w.y += shift` for every child. -/
def shiftY : Int → NodeList → NodeList
  | _, .nil => .nil
  | d, .cons n r => .cons (Node.setY (Node.y n + d) n) (shiftY d r)
end

/-- Modelled from the spec: `placeRight(edge)` sets `x = edge - w`. -/
def Node.placeRight (edge : Int) (n : Node) : Node := Node.setX (edge - n.w) n

/-- Modelled from the spec: `placeBottom(edge)` sets `y = edge - h`. -/
def Node.placeBottom (edge : Int) (n : Node) : Node := Node.setY (edge - n.h) n

/-- Modelled from the spec: `recenter(x=c)` moves the anchor so the center's
first coordinate becomes `c`, leaving the other axis alone: `x = c - w/2`. -/
def Node.recenterX (c : Int) (n : Node) : Node := Node.setX (c - n.w / 2) n

/-- Modelled from the spec: `recenter(y=c)`, symmetric to `recenterX`. -/
def Node.recenterY (c : Int) (n : Node) : Node := Node.setY (c - n.h / 2) n

mutual
/-- Well-formedness of API-reachable trees: every layout in the tree has at
least one child (`insertLayout` refuses empty layouts, and widgets can only
enter a layout through `insertWidget`). -/
def Node.wf : Node → Bool
  | .widget _ => true
  | .hbox _ _ cs => match cs with
      | .nil => false
      | .cons n r => listWf (.cons n r)
  | .vbox _ _ cs => match cs with
      | .nil => false
      | .cons n r => listWf (.cons n r)
  | .stacked _ cs => match cs with
      | .nil => false
      | .cons n r => listWf (.cons n r)

def listWf : NodeList → Bool
  | .nil => true
  | .cons n r => Node.wf n && listWf r
end

/-- The vertical-alignment step of the `HBoxLayout.shuffle` loop body, with
`selfY` the current `self.y` and `first` the current `self.widgets[0]`;
`Left`/`Right` fall through the `if/elif` chain and place nothing. -/
def hboxAlignY (a : AlignmentChoice) (selfY : Int) (first : Node) (n : Node) : Node :=
  match a with
  | .top => Node.setY selfY n
  | .bottom => Node.placeBottom (Node.bottom first) n
  | .center => Node.recenterY (Node.centerY first) n
  | .left => n
  | .right => n

/-- The condition of the warning emitted by `HBoxLayout.shuffle`:
`self.alignment not in (Top, Bottom, Center)`. -/
def hboxWarns (a : AlignmentChoice) : Bool :=
  !(a == .top || a == .bottom || a == .center)

/-- `self.widgets[0]` during the loop, when the current list is
`done ++ w :: todo`. -/
def firstOf (done : NodeList) (w : Node) : Node :=
  match done with
  | .nil => w
  | .cons h _ => h

/-- The `for widget in self.widgets` loop of `HBoxLayout.shuffle`, modelling
the in-place mutation: `done` are the already-processed children, `todo` the
rest, and the cursor is `next_widget`.  Each step re-reads `self.y` and
`self.widgets[0]` from the current (partially mutated) list, aligns the
widget vertically, places it at the cursor, and advances the cursor by
`widget.w + self.spacing`. -/
def hboxLoop (s : Int) (a : AlignmentChoice) : NodeList → NodeList → Int → NodeList
  | done, .nil, _ => done
  | done, .cons w todo, cursor =>
      let selfY := minYD (done.append (.cons w todo))
      let first := firstOf done w
      let w1 := hboxAlignY a selfY first w
      let w2 := Node.setX cursor w1
      hboxLoop s a (done.append (.cons w2 .nil)) todo (cursor + Node.w w2 + s)

/-- `HBoxLayout.shuffle` on the children list: the cursor starts at `self.x`
and the loop runs over all children. -/
def hboxShuffle (s : Int) (a : AlignmentChoice) (cs : NodeList) : NodeList :=
  hboxLoop s a .nil cs (minXD cs)

/-- The horizontal-alignment step of the `VBoxLayout.shuffle` loop body. -/
def vboxAlignX (a : AlignmentChoice) (selfX : Int) (first : Node) (n : Node) : Node :=
  match a with
  | .left => Node.setX selfX n
  | .right => Node.placeRight (Node.right first) n
  | .center => Node.recenterX (Node.centerX first) n
  | .top => n
  | .bottom => n

/-- The condition of the warning emitted by `VBoxLayout.shuffle`. -/
def vboxWarns (a : AlignmentChoice) : Bool :=
  !(a == .left || a == .right || a == .center)

/-- The `for widget in self.widgets` loop of `VBoxLayout.shuffle`, mirror of
`hboxLoop` on the orthogonal axis. -/
def vboxLoop (s : Int) (a : AlignmentChoice) : NodeList → NodeList → Int → NodeList
  | done, .nil, _ => done
  | done, .cons w todo, cursor =>
      let selfX := minXD (done.append (.cons w todo))
      let first := firstOf done w
      let w1 := vboxAlignX a selfX first w
      let w2 := Node.setY cursor w1
      vboxLoop s a (done.append (.cons w2 .nil)) todo (cursor + Node.h w2 + s)

/-- `VBoxLayout.shuffle` on the children list: cursor starts at `self.y`. -/
def vboxShuffle (s : Int) (a : AlignmentChoice) (cs : NodeList) : NodeList :=
  vboxLoop s a .nil cs (minYD cs)

/-- The X-axis placement of the `StackedLayout.shuffle` loop body against the
reference child `ld`. -/
def stackX (al : List AlignmentChoice) (ld : Node) (n : Node) : Node :=
  if AlignmentChoice.left ∈ al then Node.setX (Node.x ld) n
  else if AlignmentChoice.right ∈ al then Node.placeRight (Node.right ld) n
  else Node.recenterX (Node.centerX ld) n

/-- The Y-axis placement of the `StackedLayout.shuffle` loop body. -/
def stackY (al : List AlignmentChoice) (ld : Node) (n : Node) : Node :=
  if AlignmentChoice.top ∈ al then Node.setY (Node.y ld) n
  else if AlignmentChoice.bottom ∈ al then Node.placeBottom (Node.bottom ld) n
  else Node.recenterY (Node.centerY ld) n

/-- One iteration of the stacked loop for a child other than the reference. -/
def stackPlace (al : List AlignmentChoice) (ld : Node) (n : Node) : Node :=
  stackY al ld (stackX al ld n)

/-- The first iteration of the stacked loop: there `w` *is* `ld`
(`ld = self.widgets[0]` aliases the object being mutated), so the Y placement
reads the state left by the X placement. -/
def stackPlaceSelf (al : List AlignmentChoice) (n : Node) : Node :=
  let n1 := stackX al n n
  stackY al n1 n1

/-- `StackedLayout.shuffle` on the children list: `ld = self.widgets[0]`
raises `IndexError` on an empty list (modelled as `none`); otherwise every
child, the reference included, is placed against `ld`, later children seeing
the reference as mutated by its own first iteration. -/
def stackedShuffle (al : List AlignmentChoice) : NodeList → Option NodeList
  | .nil => none
  | .cons c rest =>
      let ld := stackPlaceSelf al c
      some (.cons ld (rest.map (stackPlace al ld)))

/-- The child list of a node (`Layout.widgets`); empty for a widget leaf. -/
def Node.children : Node → NodeList
  | .widget _ => .nil
  | .hbox _ _ cs => cs
  | .vbox _ _ cs => cs
  | .stacked _ cs => cs

/-- The `isinstance(·, Layout)` test. -/
def Node.isLayout : Node → Bool
  | .widget _ => false
  | .hbox _ _ _ => true
  | .vbox _ _ _ => true
  | .stacked _ _ => true

/-- Replace a layout node's child list, keeping its attributes. -/
def Node.withChildren : Node → NodeList → Node
  | .widget wg, _ => .widget wg
  | .hbox s a _, cs => .hbox s a cs
  | .vbox s a _, cs => .vbox s a cs
  | .stacked al _, cs => .stacked al cs

/-- The `shuffle` of one node: widgets have none to run (the base
`Layout.shuffle` itself only propagates upward, which is outside a single
node's state); each concrete layout reruns its placement loop, and the
stacked loop's unguarded `self.widgets[0]` surfaces as `IndexError`. -/
def Node.shuffle : Node → Except PedlError Node
  | .widget wg => .ok (.widget wg)
  | .hbox s a cs => .ok (.hbox s a (hboxShuffle s a cs))
  | .vbox s a cs => .ok (.vbox s a (vboxShuffle s a cs))
  | .stacked al cs =>
      match stackedShuffle al cs with
      | none => .error .indexError
      | some cs' => .ok (.stacked al cs')

/-- Python's `list.insert(index, x)` on the child list (non-negative index,
clamped to an append past the end). -/
def listInsert (i : Nat) (x : Node) : NodeList → NodeList
  | .nil => .cons x .nil
  | .cons c r =>
      match i with
      | 0 => .cons x (.cons c r)
      | i + 1 => .cons c (listInsert i x r)

/-- `Layout.insertLayout(index, layout)`.  The state it touches is the
target node, the incoming layout's `parent` back-reference (modelled as an
optional identifier, the target's being `tid`), and the raised error if any:
type check, empty-layout guard, then set the parent, insert, and shuffle. -/
def insertLayout (tid : Nat) (target : Node) (index : Nat) (incoming : Node)
    (incomingParent : Option Nat) : (Node × Option Nat) × Option PedlError :=
  if incoming.isLayout = false then
    ((target, incomingParent), some .typeError)
  else if incoming.children.length > 0 then
    let t1 := target.withChildren (listInsert index incoming target.children)
    match t1.shuffle with
    | .ok t2 => ((t2, some tid), none)
    | .error e => ((t1, some tid), some e)
  else
    ((target, incomingParent), some .valueError)

/-- `Layout.addLayout(layout)` inserts at `self.count`. -/
def addLayout (tid : Nat) (target : Node) (incoming : Node)
    (incomingParent : Option Nat) : (Node × Option Nat) × Option PedlError :=
  insertLayout tid target target.children.length incoming incomingParent

/-- Python truthiness of a spacing value that may be `None` or an int:
`None` and `0` are falsy. -/
def spacingTruthy : Option Int → Bool
  | none => false
  | some n => n != 0

/-- The overriding `StackedLayout.spacing` setter: `if spacing: raise
ValueError`, else store into `attributes` — no shuffle on either path.
Returns the stored spacing, the (untouched) children and the error if any. -/
def stackedWriteSpacing (stored : Option Int) (cs : NodeList) (v : Option Int) :
    (Option Int × NodeList) × Option PedlError :=
  if spacingTruthy v then ((stored, cs), some .valueError)
  else ((v, cs), none)

/-- The loose inputs the `StackedLayout.alignment` setter accepts: a scalar
choice or a list of choices. -/
inductive AlignInput where
  | single (a : AlignmentChoice)
  | many (l : List AlignmentChoice)

/-- The normalization in the `StackedLayout.alignment` setter: iterate and
coerce, wrapping a non-iterable scalar in a one-element list. -/
def normalizeAlign : AlignInput → List AlignmentChoice
  | .single a => [a]
  | .many l => l

/-- The overriding `StackedLayout.alignment` setter: normalize, then only if
the value differs from the stored one, store it and shuffle (the stacked
shuffle can raise `IndexError` on an empty child list, after storing). -/
def stackedWriteAlignment (stored : List AlignmentChoice) (cs : NodeList)
    (v : AlignInput) : (List AlignmentChoice × NodeList) × Option PedlError :=
  let al := normalizeAlign v
  if al = stored then ((stored, cs), none)
  else
    match stackedShuffle al cs with
    | none => ((al, cs), some .indexError)
    | some cs' => ((al, cs'), none)

/-- Modelled from the spec: the attribute framework's default property write
(`utils.pedlproperty` is not under `src/`) — store the value, then run the
on-write callback unconditionally, even when the new value equals the old
one; for `Layout.spacing` the registered callback is `shuffle`.  HBox and
VBox keep this default path for `spacing`. -/
def defaultWriteSpacing (n : Node) (v : Int) : Except PedlError Node :=
  match n with
  | .hbox _ a cs => Node.shuffle (.hbox v a cs)
  | .vbox _ a cs => Node.shuffle (.vbox v a cs)
  | other => .ok other

/-- Modelled from the spec: the default property write for
`Layout.alignment` on HBox/VBox — store, then the callback shuffles. -/
def defaultWriteAlignment (n : Node) (v : AlignmentChoice) : Except PedlError Node :=
  match n with
  | .hbox s _ cs => Node.shuffle (.hbox s v cs)
  | .vbox s _ cs => Node.shuffle (.vbox s v cs)
  | other => .ok other

/-- The `x` coordinates of a child list, in order. -/
def xsOf : NodeList → List Int
  | .nil => []
  | .cons n r => Node.x n :: xsOf r

/-- The `y` coordinates of a child list, in order. -/
def ysOf : NodeList → List Int
  | .nil => []
  | .cons n r => Node.y n :: ysOf r

/-- The widths of a child list, in order. -/
def wsOf : NodeList → List Int
  | .nil => []
  | .cons n r => Node.w n :: wsOf r

/-- The heights of a child list, in order. -/
def hsOf : NodeList → List Int
  | .nil => []
  | .cons n r => Node.h n :: hsOf r

/-- The right edges of a child list, in order. -/
def rightsOf : NodeList → List Int
  | .nil => []
  | .cons n r => Node.right n :: rightsOf r

/-- The bottom edges of a child list, in order. -/
def bottomsOf : NodeList → List Int
  | .nil => []
  | .cons n r => Node.bottom n :: bottomsOf r

/-- Python's `min` over a list of ints (`0` only as the unused empty case). -/
def pymin : List Int → Int
  | [] => 0
  | [a] => a
  | a :: r => min a (pymin r)

/-- Python's `max` over a list of ints. -/
def pymax : List Int → Int
  | [] => 0
  | [a] => a
  | a :: r => max a (pymax r)

/-- The spec's cursor recurrence for box layouts: the first child is placed
at the starting coordinate, and after each child the cursor advances by that
child's extent plus the spacing. -/
def specCursorXs (start s : Int) : List Int → List Int
  | [] => []
  | w :: ws => start :: specCursorXs (start + w + s) s ws

/-! ### Unfolding and projection lemmas -/

@[simp] theorem x_hbox (s a cs) : Node.x (.hbox s a cs) = minXD cs := by simp [Node.x]

@[simp] theorem x_vbox (s a cs) : Node.x (.vbox s a cs) = minXD cs := by simp [Node.x]

@[simp] theorem x_stacked (al cs) : Node.x (.stacked al cs) = minXD cs := by simp [Node.x]

@[simp] theorem y_hbox (s a cs) : Node.y (.hbox s a cs) = minYD cs := by simp [Node.y]

@[simp] theorem y_vbox (s a cs) : Node.y (.vbox s a cs) = minYD cs := by simp [Node.y]

@[simp] theorem y_stacked (al cs) : Node.y (.stacked al cs) = minYD cs := by simp [Node.y]

@[simp] theorem w_hbox_cons (s a c r) :
    Node.w (.hbox s a (.cons c r)) = maxRightD (.cons c r) - minXD (.cons c r) := by
  simp [Node.w]

@[simp] theorem w_vbox_cons (s a c r) :
    Node.w (.vbox s a (.cons c r)) = maxRightD (.cons c r) - minXD (.cons c r) := by
  simp [Node.w]

@[simp] theorem w_stacked_cons (al c r) :
    Node.w (.stacked al (.cons c r)) = maxRightD (.cons c r) - minXD (.cons c r) := by
  simp [Node.w]

@[simp] theorem h_hbox_cons (s a c r) :
    Node.h (.hbox s a (.cons c r)) = maxBottomD (.cons c r) - minYD (.cons c r) := by
  simp [Node.h]

@[simp] theorem h_vbox_cons (s a c r) :
    Node.h (.vbox s a (.cons c r)) = maxBottomD (.cons c r) - minYD (.cons c r) := by
  simp [Node.h]

@[simp] theorem h_stacked_cons (al c r) :
    Node.h (.stacked al (.cons c r)) = maxBottomD (.cons c r) - minYD (.cons c r) := by
  simp [Node.h]

@[simp] theorem wf_hbox_cons (s a c r) :
    Node.wf (.hbox s a (.cons c r)) = listWf (.cons c r) := by simp [Node.wf]

@[simp] theorem wf_vbox_cons (s a c r) :
    Node.wf (.vbox s a (.cons c r)) = listWf (.cons c r) := by simp [Node.wf]

@[simp] theorem wf_stacked_cons (al c r) :
    Node.wf (.stacked al (.cons c r)) = listWf (.cons c r) := by simp [Node.wf]

@[simp] theorem minXD_cons_cons (n m r) :
    minXD (.cons n (.cons m r)) = min (Node.x n) (minXD (.cons m r)) := by
  simp [minXD]

@[simp] theorem minYD_cons_cons (n m r) :
    minYD (.cons n (.cons m r)) = min (Node.y n) (minYD (.cons m r)) := by
  simp [minYD]

@[simp] theorem maxRightD_cons_cons (n m r) :
    maxRightD (.cons n (.cons m r)) =
      max (Node.x n + Node.w n) (maxRightD (.cons m r)) := by
  simp [maxRightD]

@[simp] theorem maxBottomD_cons_cons (n m r) :
    maxBottomD (.cons n (.cons m r)) =
      max (Node.y n + Node.h n) (maxBottomD (.cons m r)) := by
  simp [maxBottomD]

@[simp] theorem minXD_single (n) : minXD (.cons n .nil) = Node.x n := by simp [minXD]

@[simp] theorem minYD_single (n) : minYD (.cons n .nil) = Node.y n := by simp [minYD]

@[simp] theorem maxRightD_single (n) :
    maxRightD (.cons n .nil) = Node.x n + Node.w n := by simp [maxRightD]

@[simp] theorem maxBottomD_single (n) :
    maxBottomD (.cons n .nil) = Node.y n + Node.h n := by simp [maxBottomD]

theorem listWf_cons (n r) : listWf (.cons n r) = (Node.wf n && listWf r) := by
  simp [listWf]

theorem xsOf_append : ∀ l1 l2 : NodeList, xsOf (l1.append l2) = xsOf l1 ++ xsOf l2
  | .nil, l2 => by simp [NodeList.append, xsOf]
  | .cons n r, l2 => by simp [NodeList.append, xsOf, xsOf_append r l2]

theorem ysOf_append : ∀ l1 l2 : NodeList, ysOf (l1.append l2) = ysOf l1 ++ ysOf l2
  | .nil, l2 => by simp [NodeList.append, ysOf]
  | .cons n r, l2 => by simp [NodeList.append, ysOf, ysOf_append r l2]

theorem wsOf_append : ∀ l1 l2 : NodeList, wsOf (l1.append l2) = wsOf l1 ++ wsOf l2
  | .nil, l2 => by simp [NodeList.append, wsOf]
  | .cons n r, l2 => by simp [NodeList.append, wsOf, wsOf_append r l2]

theorem hsOf_append : ∀ l1 l2 : NodeList, hsOf (l1.append l2) = hsOf l1 ++ hsOf l2
  | .nil, l2 => by simp [NodeList.append, hsOf]
  | .cons n r, l2 => by simp [NodeList.append, hsOf, hsOf_append r l2]

theorem length_append : ∀ l1 l2 : NodeList, (l1.append l2).length = l1.length + l2.length
  | .nil, l2 => by simp [NodeList.append, NodeList.length]
  | .cons n r, l2 => by
      simp [NodeList.append, NodeList.length, length_append r l2] ; omega

theorem listWf_append : ∀ l1 l2 : NodeList, listWf (l1.append l2) = (listWf l1 && listWf l2)
  | .nil, l2 => by simp [NodeList.append, listWf]
  | .cons n r, l2 => by
      simp [NodeList.append, listWf, listWf_append r l2, Bool.and_assoc]

theorem minXD_eq_pymin : ∀ cs : NodeList, minXD cs = pymin (xsOf cs)
  | .nil => by simp [minXD, xsOf, pymin]
  | .cons n .nil => by simp [minXD, xsOf, pymin]
  | .cons n (.cons m r) => by
      simp [minXD, xsOf, pymin, minXD_eq_pymin (.cons m r)]

theorem minYD_eq_pymin : ∀ cs : NodeList, minYD cs = pymin (ysOf cs)
  | .nil => by simp [minYD, ysOf, pymin]
  | .cons n .nil => by simp [minYD, ysOf, pymin]
  | .cons n (.cons m r) => by
      simp [minYD, ysOf, pymin, minYD_eq_pymin (.cons m r)]

theorem maxRightD_eq_pymax : ∀ cs : NodeList, maxRightD cs = pymax (rightsOf cs)
  | .nil => by simp [maxRightD, rightsOf, pymax]
  | .cons n .nil => by simp [maxRightD, rightsOf, pymax, Node.right]
  | .cons n (.cons m r) => by
      simp [maxRightD, rightsOf, pymax, Node.right, maxRightD_eq_pymax (.cons m r)]

theorem maxBottomD_eq_pymax : ∀ cs : NodeList, maxBottomD cs = pymax (bottomsOf cs)
  | .nil => by simp [maxBottomD, bottomsOf, pymax]
  | .cons n .nil => by simp [maxBottomD, bottomsOf, pymax, Node.bottom]
  | .cons n (.cons m r) => by
      simp [maxBottomD, bottomsOf, pymax, Node.bottom, maxBottomD_eq_pymax (.cons m r)]

/-! ### The `x`/`y` setter specification on well-formed trees -/

mutual
theorem setX_spec : ∀ (n : Node), n.wf = true → ∀ v : Int,
    Node.x (Node.setX v n) = v ∧ Node.y (Node.setX v n) = Node.y n ∧
    Node.w (Node.setX v n) = Node.w n ∧ Node.h (Node.setX v n) = Node.h n ∧
    Node.wf (Node.setX v n) = true
  | .widget wg, _, v => by
      simp [Node.setX, Node.x, Node.y, Node.w, Node.h, Node.wf]
  | .hbox s a .nil, h, v => by simp [Node.wf] at h
  | .hbox s a (.cons c r), h, v => by
      rw [wf_hbox_cons] at h
      obtain ⟨h1, h2, h3, h4, h5⟩ := shiftX_spec c r h (v - minXD (.cons c r))
      simp only [Node.setX]
      cases e : shiftX (v - minXD (.cons c r)) (.cons c r) with
      | nil => simp [shiftX] at e
      | cons c' r' =>
        rw [e] at h1 h2 h3 h4 h5
        refine ⟨?_, ?_, ?_, ?_, ?_⟩
        · simp only [x_hbox, h1] ; omega
        · simp only [y_hbox, h2]
        · simp only [w_hbox_cons, h1, h3] ; omega
        · simp only [h_hbox_cons, h2, h4]
        · simp only [wf_hbox_cons, h5]
  | .vbox s a .nil, h, v => by simp [Node.wf] at h
  | .vbox s a (.cons c r), h, v => by
      rw [wf_vbox_cons] at h
      obtain ⟨h1, h2, h3, h4, h5⟩ := shiftX_spec c r h (v - minXD (.cons c r))
      simp only [Node.setX]
      cases e : shiftX (v - minXD (.cons c r)) (.cons c r) with
      | nil => simp [shiftX] at e
      | cons c' r' =>
        rw [e] at h1 h2 h3 h4 h5
        refine ⟨?_, ?_, ?_, ?_, ?_⟩
        · simp only [x_vbox, h1] ; omega
        · simp only [y_vbox, h2]
        · simp only [w_vbox_cons, h1, h3] ; omega
        · simp only [h_vbox_cons, h2, h4]
        · simp only [wf_vbox_cons, h5]
  | .stacked al .nil, h, v => by simp [Node.wf] at h
  | .stacked al (.cons c r), h, v => by
      rw [wf_stacked_cons] at h
      obtain ⟨h1, h2, h3, h4, h5⟩ := shiftX_spec c r h (v - minXD (.cons c r))
      simp only [Node.setX]
      cases e : shiftX (v - minXD (.cons c r)) (.cons c r) with
      | nil => simp [shiftX] at e
      | cons c' r' =>
        rw [e] at h1 h2 h3 h4 h5
        refine ⟨?_, ?_, ?_, ?_, ?_⟩
        · simp only [x_stacked, h1] ; omega
        · simp only [y_stacked, h2]
        · simp only [w_stacked_cons, h1, h3] ; omega
        · simp only [h_stacked_cons, h2, h4]
        · simp only [wf_stacked_cons, h5]
termination_by n _ _ => sizeOf n

theorem shiftX_spec : ∀ (c : Node) (r : NodeList), listWf (.cons c r) = true → ∀ d : Int,
    minXD (shiftX d (.cons c r)) = minXD (.cons c r) + d ∧
    minYD (shiftX d (.cons c r)) = minYD (.cons c r) ∧
    maxRightD (shiftX d (.cons c r)) = maxRightD (.cons c r) + d ∧
    maxBottomD (shiftX d (.cons c r)) = maxBottomD (.cons c r) ∧
    listWf (shiftX d (.cons c r)) = true
  | c, .nil, h, d => by
      rw [listWf_cons, Bool.and_eq_true] at h
      obtain ⟨g1, g2, g3, g4, g5⟩ := setX_spec c h.1 (Node.x c + d)
      simp only [shiftX]
      refine ⟨?_, ?_, ?_, ?_, ?_⟩
      · simp only [minXD_single, g1]
      · simp only [minYD_single, g2]
      · simp only [maxRightD_single, g1, g3] ; omega
      · simp only [maxBottomD_single, g2, g4]
      · rw [listWf_cons, g5] ; simp [listWf]
  | c, .cons m r2, h, d => by
      rw [listWf_cons, Bool.and_eq_true] at h
      obtain ⟨g1, g2, g3, g4, g5⟩ := setX_spec c h.1 (Node.x c + d)
      obtain ⟨h1, h2, h3, h4, h5⟩ := shiftX_spec m r2 h.2 d
      simp only [shiftX] at h1 h2 h3 h4 h5 ⊢
      refine ⟨?_, ?_, ?_, ?_, ?_⟩
      · simp only [minXD_cons_cons, g1, h1] ; omega
      · simp only [minYD_cons_cons, g2, h2]
      · simp only [maxRightD_cons_cons, g1, g3, h3] ; omega
      · simp only [maxBottomD_cons_cons, g2, g4, h4]
      · rw [listWf_cons, g5, h5] ; rfl
termination_by c r _ _ => sizeOf c + sizeOf r
end

mutual
theorem setY_spec : ∀ (n : Node), n.wf = true → ∀ v : Int,
    Node.y (Node.setY v n) = v ∧ Node.x (Node.setY v n) = Node.x n ∧
    Node.w (Node.setY v n) = Node.w n ∧ Node.h (Node.setY v n) = Node.h n ∧
    Node.wf (Node.setY v n) = true
  | .widget wg, _, v => by
      simp [Node.setY, Node.x, Node.y, Node.w, Node.h, Node.wf]
  | .hbox s a .nil, h, v => by simp [Node.wf] at h
  | .hbox s a (.cons c r), h, v => by
      rw [wf_hbox_cons] at h
      obtain ⟨h1, h2, h3, h4, h5⟩ := shiftY_spec c r h (v - minYD (.cons c r))
      simp only [Node.setY]
      cases e : shiftY (v - minYD (.cons c r)) (.cons c r) with
      | nil => simp [shiftY] at e
      | cons c' r' =>
        rw [e] at h1 h2 h3 h4 h5
        refine ⟨?_, ?_, ?_, ?_, ?_⟩
        · simp only [y_hbox, h1] ; omega
        · simp only [x_hbox, h2]
        · simp only [w_hbox_cons, h2, h3]
        · simp only [h_hbox_cons, h1, h4] ; omega
        · simp only [wf_hbox_cons, h5]
  | .vbox s a .nil, h, v => by simp [Node.wf] at h
  | .vbox s a (.cons c r), h, v => by
      rw [wf_vbox_cons] at h
      obtain ⟨h1, h2, h3, h4, h5⟩ := shiftY_spec c r h (v - minYD (.cons c r))
      simp only [Node.setY]
      cases e : shiftY (v - minYD (.cons c r)) (.cons c r) with
      | nil => simp [shiftY] at e
      | cons c' r' =>
        rw [e] at h1 h2 h3 h4 h5
        refine ⟨?_, ?_, ?_, ?_, ?_⟩
        · simp only [y_vbox, h1] ; omega
        · simp only [x_vbox, h2]
        · simp only [w_vbox_cons, h2, h3]
        · simp only [h_vbox_cons, h1, h4] ; omega
        · simp only [wf_vbox_cons, h5]
  | .stacked al .nil, h, v => by simp [Node.wf] at h
  | .stacked al (.cons c r), h, v => by
      rw [wf_stacked_cons] at h
      obtain ⟨h1, h2, h3, h4, h5⟩ := shiftY_spec c r h (v - minYD (.cons c r))
      simp only [Node.setY]
      cases e : shiftY (v - minYD (.cons c r)) (.cons c r) with
      | nil => simp [shiftY] at e
      | cons c' r' =>
        rw [e] at h1 h2 h3 h4 h5
        refine ⟨?_, ?_, ?_, ?_, ?_⟩
        · simp only [y_stacked, h1] ; omega
        · simp only [x_stacked, h2]
        · simp only [w_stacked_cons, h2, h3]
        · simp only [h_stacked_cons, h1, h4] ; omega
        · simp only [wf_stacked_cons, h5]
termination_by n _ _ => sizeOf n

theorem shiftY_spec : ∀ (c : Node) (r : NodeList), listWf (.cons c r) = true → ∀ d : Int,
    minYD (shiftY d (.cons c r)) = minYD (.cons c r) + d ∧
    minXD (shiftY d (.cons c r)) = minXD (.cons c r) ∧
    maxRightD (shiftY d (.cons c r)) = maxRightD (.cons c r) ∧
    maxBottomD (shiftY d (.cons c r)) = maxBottomD (.cons c r) + d ∧
    listWf (shiftY d (.cons c r)) = true
  | c, .nil, h, d => by
      rw [listWf_cons, Bool.and_eq_true] at h
      obtain ⟨g1, g2, g3, g4, g5⟩ := setY_spec c h.1 (Node.y c + d)
      simp only [shiftY]
      refine ⟨?_, ?_, ?_, ?_, ?_⟩
      · simp only [minYD_single, g1]
      · simp only [minXD_single, g2]
      · simp only [maxRightD_single, g2, g3]
      · simp only [maxBottomD_single, g1, g4] ; omega
      · rw [listWf_cons, g5] ; simp [listWf]
  | c, .cons m r2, h, d => by
      rw [listWf_cons, Bool.and_eq_true] at h
      obtain ⟨g1, g2, g3, g4, g5⟩ := setY_spec c h.1 (Node.y c + d)
      obtain ⟨h1, h2, h3, h4, h5⟩ := shiftY_spec m r2 h.2 d
      simp only [shiftY] at h1 h2 h3 h4 h5 ⊢
      refine ⟨?_, ?_, ?_, ?_, ?_⟩
      · simp only [minYD_cons_cons, g1, h1] ; omega
      · simp only [minXD_cons_cons, g2, h2]
      · simp only [maxRightD_cons_cons, g2, g3, h3]
      · simp only [maxBottomD_cons_cons, g1, g4, h4] ; omega
      · rw [listWf_cons, g5, h5] ; rfl
termination_by c r _ _ => sizeOf c + sizeOf r
end

/-! ### Alignment-step and loop lemmas for `HBoxLayout.shuffle` -/

theorem hboxAlignY_pres (a : AlignmentChoice) (selfY : Int) (first n : Node)
    (h : n.wf = true) :
    Node.x (hboxAlignY a selfY first n) = Node.x n ∧
    Node.w (hboxAlignY a selfY first n) = Node.w n ∧
    Node.h (hboxAlignY a selfY first n) = Node.h n ∧
    Node.wf (hboxAlignY a selfY first n) = true := by
  cases a with
  | top =>
      simp only [hboxAlignY]
      have t := setY_spec n h selfY
      exact ⟨t.2.1, t.2.2.1, t.2.2.2.1, t.2.2.2.2⟩
  | bottom =>
      simp only [hboxAlignY, Node.placeBottom]
      have t := setY_spec n h (Node.bottom first - n.h)
      exact ⟨t.2.1, t.2.2.1, t.2.2.2.1, t.2.2.2.2⟩
  | center =>
      simp only [hboxAlignY, Node.recenterY]
      have t := setY_spec n h (Node.centerY first - n.h / 2)
      exact ⟨t.2.1, t.2.2.1, t.2.2.2.1, t.2.2.2.2⟩
  | left => simp only [hboxAlignY] ; exact ⟨trivial, trivial, trivial, h⟩
  | right => simp only [hboxAlignY] ; exact ⟨trivial, trivial, trivial, h⟩

theorem hboxLoop_spec (s : Int) (a : AlignmentChoice) :
    ∀ (todo done : NodeList) (cursor : Int), listWf done = true → listWf todo = true →
    xsOf (hboxLoop s a done todo cursor) = xsOf done ++ specCursorXs cursor s (wsOf todo) ∧
    wsOf (hboxLoop s a done todo cursor) = wsOf done ++ wsOf todo ∧
    hsOf (hboxLoop s a done todo cursor) = hsOf done ++ hsOf todo ∧
    listWf (hboxLoop s a done todo cursor) = true
  | .nil, done, cursor, hd, _ => by
      simp [hboxLoop, specCursorXs, wsOf, hsOf, hd]
  | .cons w todo, done, cursor, hd, ht => by
      rw [listWf_cons, Bool.and_eq_true] at ht
      simp only [hboxLoop]
      obtain ⟨a1, a2, a3, a4⟩ :=
        hboxAlignY_pres a (minYD (done.append (.cons w todo))) (firstOf done w) w ht.1
      obtain ⟨b1, b2, b3, b4, b5⟩ := setX_spec
        (hboxAlignY a (minYD (done.append (.cons w todo))) (firstOf done w) w) a4 cursor
      have hd' : listWf (done.append (.cons (Node.setX cursor
      (hboxAlignY a (minYD (done.append (.cons w todo))) (firstOf done w) w)) .nil)) = true := by
        rw [listWf_append, listWf_cons, b5]
        simp [hd, listWf]
      obtain ⟨i1, i2, i3, i4⟩ := hboxLoop_spec s a todo
        (done.append (.cons (Node.setX cursor
          (hboxAlignY a (minYD (done.append (.cons w todo))) (firstOf done w) w)) .nil))
        (cursor + Node.w (Node.setX cursor
          (hboxAlignY a (minYD (done.append (.cons w todo))) (firstOf done w) w)) + s)
        hd' ht.2
      refine ⟨?_, ?_, ?_, ?_⟩
      · rw [i1, xsOf_append]
        simp only [xsOf, wsOf, specCursorXs, b1]
        rw [b3, a2]
        simp [List.append_assoc]
      · rw [i2, wsOf_append]
        simp only [wsOf]
        rw [b3, a2]
        simp [List.append_assoc]
      · rw [i3, hsOf_append]
        simp only [hsOf]
        rw [b4, a3]
        simp [List.append_assoc]
      · exact i4

theorem hboxLoop_ys (s : Int) (a : AlignmentChoice) (hA : a = .left ∨ a = .right) :
    ∀ (todo done : NodeList) (cursor : Int), listWf done = true → listWf todo = true →
    ysOf (hboxLoop s a done todo cursor) = ysOf done ++ ysOf todo
  | .nil, done, cursor, hd, _ => by simp [hboxLoop, ysOf]
  | .cons w todo, done, cursor, hd, ht => by
      rw [listWf_cons, Bool.and_eq_true] at ht
      simp only [hboxLoop]
      have hAlign : hboxAlignY a (minYD (done.append (.cons w todo))) (firstOf done w) w = w := by
        rcases hA with h | h <;> subst h <;> simp [hboxAlignY]
      rw [hAlign]
      obtain ⟨b1, b2, b3, b4, b5⟩ := setX_spec w ht.1 cursor
      have hd' : listWf (done.append (.cons (Node.setX cursor w) .nil)) = true := by
        rw [listWf_append, listWf_cons, b5]
        simp [hd, listWf]
      rw [hboxLoop_ys s a hA todo _ _ hd' ht.2, ysOf_append]
      simp only [ysOf, b2]
      simp [List.append_assoc]

theorem hboxLoop_length (s : Int) (a : AlignmentChoice) :
    ∀ (todo done : NodeList) (cursor : Int),
    (hboxLoop s a done todo cursor).length = done.length + todo.length
  | .nil, done, cursor => by simp [hboxLoop, NodeList.length]
  | .cons w todo, done, cursor => by
      simp only [hboxLoop]
      rw [hboxLoop_length s a todo _ _, length_append]
      simp [NodeList.length] ; omega

theorem vboxLoop_length (s : Int) (a : AlignmentChoice) :
    ∀ (todo done : NodeList) (cursor : Int),
    (vboxLoop s a done todo cursor).length = done.length + todo.length
  | .nil, done, cursor => by simp [vboxLoop, NodeList.length]
  | .cons w todo, done, cursor => by
      simp only [vboxLoop]
      rw [vboxLoop_length s a todo _ _, length_append]
      simp [NodeList.length] ; omega

/-! ### Recenter and stacked-placement lemmas -/

theorem recenterX_spec (n : Node) (h : n.wf = true) (c : Int) :
    Node.centerX (Node.recenterX c n) = c ∧
    Node.y (Node.recenterX c n) = Node.y n ∧
    Node.w (Node.recenterX c n) = Node.w n ∧
    Node.h (Node.recenterX c n) = Node.h n ∧
    Node.wf (Node.recenterX c n) = true := by
  obtain ⟨t1, t2, t3, t4, t5⟩ := setX_spec n h (c - n.w / 2)
  refine ⟨?_, t2, t3, t4, t5⟩
  simp only [Node.recenterX, Node.centerX, t1, t3]
  omega

theorem recenterY_spec (n : Node) (h : n.wf = true) (c : Int) :
    Node.centerY (Node.recenterY c n) = c ∧
    Node.x (Node.recenterY c n) = Node.x n ∧
    Node.w (Node.recenterY c n) = Node.w n ∧
    Node.h (Node.recenterY c n) = Node.h n ∧
    Node.wf (Node.recenterY c n) = true := by
  obtain ⟨t1, t2, t3, t4, t5⟩ := setY_spec n h (c - n.h / 2)
  refine ⟨?_, t2, t3, t4, t5⟩
  simp only [Node.recenterY, Node.centerY, t1, t4]
  omega

theorem stackX_center (ld n : Node) :
    stackX [.center] ld n = Node.recenterX (Node.centerX ld) n := by
  simp only [stackX]
  rw [if_neg (by decide), if_neg (by decide)]

theorem stackY_center (ld n : Node) :
    stackY [.center] ld n = Node.recenterY (Node.centerY ld) n := by
  simp only [stackY]
  rw [if_neg (by decide), if_neg (by decide)]

theorem stackPlace_center (ld n : Node) (hn : n.wf = true) :
    Node.centerX (stackPlace [.center] ld n) = Node.centerX ld ∧
    Node.centerY (stackPlace [.center] ld n) = Node.centerY ld ∧
    Node.wf (stackPlace [.center] ld n) = true := by
  simp only [stackPlace, stackX_center, stackY_center]
  obtain ⟨p1, p2, p3, p4, p5⟩ := recenterX_spec n hn (Node.centerX ld)
  obtain ⟨o1, o2, o3, o4, o5⟩ :=
    recenterY_spec (Node.recenterX (Node.centerX ld) n) p5 (Node.centerY ld)
  refine ⟨?_, o1, o5⟩
  show Node.x _ + Node.w _ / 2 = Node.centerX ld
  rw [o2, o3]
  exact p1

/-! ### Pointwise child projections under the `x`/`y` setters -/

theorem shiftX_proj : ∀ (cs : NodeList), listWf cs = true → ∀ d : Int,
    xsOf (shiftX d cs) = (xsOf cs).map (· + d) ∧
    ysOf (shiftX d cs) = ysOf cs ∧
    wsOf (shiftX d cs) = wsOf cs ∧
    hsOf (shiftX d cs) = hsOf cs
  | .nil, _, d => by simp [shiftX, xsOf, ysOf, wsOf, hsOf]
  | .cons c r, h, d => by
      rw [listWf_cons, Bool.and_eq_true] at h
      obtain ⟨g1, g2, g3, g4, g5⟩ := setX_spec c h.1 (Node.x c + d)
      obtain ⟨i1, i2, i3, i4⟩ := shiftX_proj r h.2 d
      simp [shiftX, xsOf, ysOf, wsOf, hsOf, g1, g2, g3, g4, i1, i2, i3, i4]

theorem shiftY_proj : ∀ (cs : NodeList), listWf cs = true → ∀ d : Int,
    ysOf (shiftY d cs) = (ysOf cs).map (· + d) ∧
    xsOf (shiftY d cs) = xsOf cs ∧
    wsOf (shiftY d cs) = wsOf cs ∧
    hsOf (shiftY d cs) = hsOf cs
  | .nil, _, d => by simp [shiftY, xsOf, ysOf, wsOf, hsOf]
  | .cons c r, h, d => by
      rw [listWf_cons, Bool.and_eq_true] at h
      obtain ⟨g1, g2, g3, g4, g5⟩ := setY_spec c h.1 (Node.y c + d)
      obtain ⟨i1, i2, i3, i4⟩ := shiftY_proj r h.2 d
      simp [shiftY, xsOf, ysOf, wsOf, hsOf, g1, g2, g3, g4, i1, i2, i3, i4]

/-! ### Claim theorems -/

/-- C1: for every layout with at least one child, after any shuffle the
derived geometry satisfies the bounding-box equations — `x` is the minimum
child `x`, `y` the minimum child `y`, `w` the maximum child right edge minus
the layout's `x`, and `h` the maximum child bottom edge minus the layout's
`y`. -/
theorem claim_c1_bounding_box (n n' : Node) (hL : n.isLayout = true)
    (hne : n.children ≠ .nil) (hs : n.shuffle = .ok n') :
    Node.x n' = pymin (xsOf n'.children) ∧
    Node.y n' = pymin (ysOf n'.children) ∧
    Node.w n' = pymax (rightsOf n'.children) - Node.x n' ∧
    Node.h n' = pymax (bottomsOf n'.children) - Node.y n' := by
  cases n with
  | widget wg => simp [Node.isLayout] at hL
  | hbox s a cs =>
      simp only [Node.shuffle, Except.ok.injEq] at hs
      subst hs
      cases cs with
      | nil => simp [Node.children] at hne
      | cons c r =>
        have hlen : (hboxShuffle s a (.cons c r)).length = r.length + 1 := by
          unfold hboxShuffle
          rw [hboxLoop_length]
          simp [NodeList.length]
        cases e : hboxShuffle s a (.cons c r) with
        | nil => rw [e] at hlen ; simp [NodeList.length] at hlen
        | cons c' r' =>
          simp only [Node.children, x_hbox, y_hbox, w_hbox_cons, h_hbox_cons]
          rw [minXD_eq_pymin, minYD_eq_pymin, maxRightD_eq_pymax, maxBottomD_eq_pymax]
          exact ⟨rfl, rfl, rfl, rfl⟩
  | vbox s a cs =>
      simp only [Node.shuffle, Except.ok.injEq] at hs
      subst hs
      cases cs with
      | nil => simp [Node.children] at hne
      | cons c r =>
        have hlen : (vboxShuffle s a (.cons c r)).length = r.length + 1 := by
          unfold vboxShuffle
          rw [vboxLoop_length]
          simp [NodeList.length]
        cases e : vboxShuffle s a (.cons c r) with
        | nil => rw [e] at hlen ; simp [NodeList.length] at hlen
        | cons c' r' =>
          simp only [Node.children, x_vbox, y_vbox, w_vbox_cons, h_vbox_cons]
          rw [minXD_eq_pymin, minYD_eq_pymin, maxRightD_eq_pymax, maxBottomD_eq_pymax]
          exact ⟨rfl, rfl, rfl, rfl⟩
  | stacked al cs =>
      cases cs with
      | nil => simp [Node.shuffle, stackedShuffle] at hs
      | cons c rest =>
        simp only [Node.shuffle, stackedShuffle, Except.ok.injEq] at hs
        subst hs
        simp only [Node.children, x_stacked, y_stacked, w_stacked_cons, h_stacked_cons]
        rw [minXD_eq_pymin, minYD_eq_pymin, maxRightD_eq_pymax, maxBottomD_eq_pymax]
        exact ⟨rfl, rfl, rfl, rfl⟩

theorem claim_c1_witness :
    Node.x (Node.hbox 5 .top (.cons (.widget ⟨1, 2, 3, 4⟩) .nil)) =
      pymin (xsOf (Node.children (Node.hbox 5 .top (.cons (.widget ⟨1, 2, 3, 4⟩) .nil)))) ∧
    Node.y (Node.hbox 5 .top (.cons (.widget ⟨1, 2, 3, 4⟩) .nil)) =
      pymin (ysOf (Node.children (Node.hbox 5 .top (.cons (.widget ⟨1, 2, 3, 4⟩) .nil)))) ∧
    Node.w (Node.hbox 5 .top (.cons (.widget ⟨1, 2, 3, 4⟩) .nil)) =
      pymax (rightsOf (Node.children (Node.hbox 5 .top (.cons (.widget ⟨1, 2, 3, 4⟩) .nil)))) -
        Node.x (Node.hbox 5 .top (.cons (.widget ⟨1, 2, 3, 4⟩) .nil)) ∧
    Node.h (Node.hbox 5 .top (.cons (.widget ⟨1, 2, 3, 4⟩) .nil)) =
      pymax (bottomsOf (Node.children (Node.hbox 5 .top (.cons (.widget ⟨1, 2, 3, 4⟩) .nil)))) -
        Node.y (Node.hbox 5 .top (.cons (.widget ⟨1, 2, 3, 4⟩) .nil)) :=
  claim_c1_bounding_box
    (Node.hbox 5 .top (.cons (.widget ⟨1, 2, 3, 4⟩) .nil))
    (Node.hbox 5 .top (.cons (.widget ⟨1, 2, 3, 4⟩) .nil))
    (by decide) (by simp [Node.children]) (by rfl)

/-- C2: `HBoxLayout.shuffle` assigns each child's `x` in insertion order by a
cursor that starts at the layout's current `x` and advances by
`child.w + spacing` after each child; with widths `[10, 20, 30]`, spacing 5
and layout `x = 0` the resulting positions are `[0, 15, 40]`. -/
theorem claim_c2_hbox_cursor (s : Int) (a : AlignmentChoice) (cs : NodeList)
    (h : listWf cs = true) :
    xsOf (hboxShuffle s a cs) = specCursorXs (minXD cs) s (wsOf cs) ∧
    xsOf (hboxShuffle 5 .top
        (.cons (.widget ⟨0, 0, 10, 10⟩) (.cons (.widget ⟨0, 0, 20, 10⟩)
          (.cons (.widget ⟨0, 0, 30, 10⟩) .nil)))) = [0, 15, 40] := by
  constructor
  · have := (hboxLoop_spec s a cs .nil (minXD cs) (by simp [listWf]) h).1
    unfold hboxShuffle
    rw [this]
    simp [xsOf]
  · decide

theorem claim_c2_witness :
    xsOf (hboxShuffle 5 .top
        (.cons (.widget ⟨0, 0, 10, 10⟩) (.cons (.widget ⟨0, 0, 20, 10⟩)
          (.cons (.widget ⟨0, 0, 30, 10⟩) .nil)))) =
      specCursorXs
        (minXD (.cons (.widget ⟨0, 0, 10, 10⟩) (.cons (.widget ⟨0, 0, 20, 10⟩)
          (.cons (.widget ⟨0, 0, 30, 10⟩) .nil)))) 5
        (wsOf (.cons (.widget ⟨0, 0, 10, 10⟩) (.cons (.widget ⟨0, 0, 20, 10⟩)
          (.cons (.widget ⟨0, 0, 30, 10⟩) .nil)))) ∧
    xsOf (hboxShuffle 5 .top
        (.cons (.widget ⟨0, 0, 10, 10⟩) (.cons (.widget ⟨0, 0, 20, 10⟩)
          (.cons (.widget ⟨0, 0, 30, 10⟩) .nil)))) = [0, 15, 40] :=
  claim_c2_hbox_cursor 5 .top
    (.cons (.widget ⟨0, 0, 10, 10⟩) (.cons (.widget ⟨0, 0, 20, 10⟩)
      (.cons (.widget ⟨0, 0, 30, 10⟩) .nil))) (by decide)

/-- C3: inserting a layout with zero children via `insertLayout` (or
`addLayout`) raises `ValueError` and leaves both the target's child sequence
and the incoming layout's parent reference unchanged. -/
theorem claim_c3_empty_insert (tid : Nat) (target : Node) (index : Nat)
    (incoming : Node) (ip : Option Nat) (hL : incoming.isLayout = true)
    (hempty : incoming.children = .nil) :
    insertLayout tid target index incoming ip = ((target, ip), some .valueError) ∧
    addLayout tid target incoming ip = ((target, ip), some .valueError) := by
  constructor
  · simp [insertLayout, hL, hempty, NodeList.length]
  · simp [addLayout, insertLayout, hL, hempty, NodeList.length]

theorem claim_c3_witness :
    insertLayout 0 (Node.hbox 5 .top (.cons (.widget ⟨0, 0, 1, 1⟩) .nil)) 0
        (Node.vbox 5 .left .nil) none =
      ((Node.hbox 5 .top (.cons (.widget ⟨0, 0, 1, 1⟩) .nil), none), some .valueError) ∧
    addLayout 0 (Node.hbox 5 .top (.cons (.widget ⟨0, 0, 1, 1⟩) .nil))
        (Node.vbox 5 .left .nil) none =
      ((Node.hbox 5 .top (.cons (.widget ⟨0, 0, 1, 1⟩) .nil), none), some .valueError) :=
  claim_c3_empty_insert 0 (Node.hbox 5 .top (.cons (.widget ⟨0, 0, 1, 1⟩) .nil)) 0
    (Node.vbox 5 .left .nil) none (by decide) (by rfl)

/-- C4: the `StackedLayout.spacing` setter raises `ValueError` for every
non-falsy value, leaving the stored spacing at its prior value, and stores
any falsy value (`0` or `None`) without error. -/
theorem claim_c4_stacked_spacing (stored : Option Int) (cs : NodeList) (v : Option Int) :
    (spacingTruthy v = true →
      stackedWriteSpacing stored cs v = ((stored, cs), some .valueError)) ∧
    (spacingTruthy v = false →
      stackedWriteSpacing stored cs v = ((v, cs), none)) ∧
    spacingTruthy (some 0) = false ∧ spacingTruthy none = false := by
  refine ⟨?_, ?_, by decide, rfl⟩
  · intro h ; simp [stackedWriteSpacing, h]
  · intro h ; simp [stackedWriteSpacing, h]

theorem claim_c4_witness :
    stackedWriteSpacing (some 0) .nil (some 3) = ((some 0, .nil), some .valueError) ∧
    stackedWriteSpacing (some 0) .nil none = ((none, .nil), none) :=
  ⟨(claim_c4_stacked_spacing (some 0) .nil (some 3)).1 (by decide),
   (claim_c4_stacked_spacing (some 0) .nil none).2.1 (by decide)⟩

/-- C5 counterexample: on a `StackedLayout` storing alignment `[Center]`,
writing `Center` again is accepted without any shuffle — the children
(widgets at `x = 0` and `x = 100`) keep their stale positions — while an
actual shuffle of those children would move the second one, so the claimed
unconditional shuffle-on-write does not happen for `StackedLayout`. -/
theorem claim_c5_counterexample :
    stackedWriteAlignment [.center]
        (.cons (.widget ⟨0, 0, 10, 10⟩) (.cons (.widget ⟨100, 0, 10, 10⟩) .nil))
        (.single .center) =
      (([.center], .cons (.widget ⟨0, 0, 10, 10⟩) (.cons (.widget ⟨100, 0, 10, 10⟩) .nil)),
        none) ∧
    (stackedShuffle [.center]
        (.cons (.widget ⟨0, 0, 10, 10⟩) (.cons (.widget ⟨100, 0, 10, 10⟩) .nil))).map xsOf ≠
      some (xsOf (.cons (.widget ⟨0, 0, 10, 10⟩) (.cons (.widget ⟨100, 0, 10, 10⟩) .nil))) :=
  ⟨rfl, by decide⟩

/-- C5 amended: writes of `spacing`/`alignment` on `HBoxLayout`/`VBoxLayout`
go through the default property path and trigger `shuffle` even when the
value is unchanged; `StackedLayout` overrides both setters — its alignment
setter shuffles only when the normalized value differs from the stored one
(an equal write is a no-op), and its spacing setter never shuffles. -/
theorem claim_c5_amended :
    (∀ (s0 v : Int) (a : AlignmentChoice) (cs : NodeList),
        defaultWriteSpacing (.hbox s0 a cs) v = .ok (.hbox v a (hboxShuffle v a cs)) ∧
        defaultWriteSpacing (.vbox s0 a cs) v = .ok (.vbox v a (vboxShuffle v a cs))) ∧
    (∀ (s0 : Int) (a0 na : AlignmentChoice) (cs : NodeList),
        defaultWriteAlignment (.hbox s0 a0 cs) na = .ok (.hbox s0 na (hboxShuffle s0 na cs)) ∧
        defaultWriteAlignment (.vbox s0 a0 cs) na = .ok (.vbox s0 na (vboxShuffle s0 na cs))) ∧
    (∀ (stored : List AlignmentChoice) (cs : NodeList) (v : AlignInput),
        (normalizeAlign v = stored → stackedWriteAlignment stored cs v = ((stored, cs), none)) ∧
        (∀ cs', normalizeAlign v ≠ stored → stackedShuffle (normalizeAlign v) cs = some cs' →
          stackedWriteAlignment stored cs v = ((normalizeAlign v, cs'), none))) ∧
    (∀ (sp : Option Int) (cs : NodeList) (v : Option Int),
        (stackedWriteSpacing sp cs v).1.2 = cs) := by
  refine ⟨fun s0 v a cs => ⟨by simp [defaultWriteSpacing, Node.shuffle],
                            by simp [defaultWriteSpacing, Node.shuffle]⟩,
          fun s0 a0 na cs => ⟨by simp [defaultWriteAlignment, Node.shuffle],
                              by simp [defaultWriteAlignment, Node.shuffle]⟩,
          fun stored cs v => ⟨?_, ?_⟩,
          fun sp cs v => by unfold stackedWriteSpacing ; split <;> rfl⟩
  · intro h ; simp [stackedWriteAlignment, h]
  · intro cs' hne hs
    simp [stackedWriteAlignment, hne, hs]

theorem claim_c5_amended_witness :
    stackedWriteAlignment [.center] (.cons (.widget ⟨2, 3, 4, 5⟩) .nil) (.single .center) =
      (([.center], .cons (.widget ⟨2, 3, 4, 5⟩) .nil), none) ∧
    stackedWriteAlignment [.center] (.cons (.widget ⟨2, 3, 4, 5⟩) .nil) (.single .left) =
      (([.left], .cons (.widget ⟨2, 3, 4, 5⟩) .nil), none) :=
  ⟨(claim_c5_amended.2.2.1 [.center] (.cons (.widget ⟨2, 3, 4, 5⟩) .nil) (.single .center)).1 rfl,
   (claim_c5_amended.2.2.1 [.center] (.cons (.widget ⟨2, 3, 4, 5⟩) .nil) (.single .left)).2
     (.cons (.widget ⟨2, 3, 4, 5⟩) .nil) (by decide) (by rfl)⟩

/-- C6: a `StackedLayout` with two children and alignment `[Center]` places
both children, after `shuffle`, with exactly coinciding center points: the
non-reference child's center equals the (shuffled) first child's center on
both axes. -/
theorem claim_c6_stacked_centers (c1 c2 : Node) (h2 : c2.wf = true) :
    stackedShuffle [.center] (.cons c1 (.cons c2 .nil)) =
      some (.cons (stackPlaceSelf [.center] c1)
        (.cons (stackPlace [.center] (stackPlaceSelf [.center] c1) c2) .nil)) ∧
    Node.centerX (stackPlace [.center] (stackPlaceSelf [.center] c1) c2) =
      Node.centerX (stackPlaceSelf [.center] c1) ∧
    Node.centerY (stackPlace [.center] (stackPlaceSelf [.center] c1) c2) =
      Node.centerY (stackPlaceSelf [.center] c1) := by
  obtain ⟨e1, e2, _⟩ := stackPlace_center (stackPlaceSelf [.center] c1) c2 h2
  exact ⟨by simp [stackedShuffle, NodeList.map], e1, e2⟩

theorem claim_c6_witness :
    stackedShuffle [.center]
        (.cons (.widget ⟨0, 0, 10, 10⟩) (.cons (.widget ⟨100, 7, 4, 6⟩) .nil)) =
      some (.cons (stackPlaceSelf [.center] (.widget ⟨0, 0, 10, 10⟩))
        (.cons (stackPlace [.center] (stackPlaceSelf [.center] (.widget ⟨0, 0, 10, 10⟩))
          (.widget ⟨100, 7, 4, 6⟩)) .nil)) ∧
    Node.centerX (stackPlace [.center] (stackPlaceSelf [.center] (.widget ⟨0, 0, 10, 10⟩))
        (.widget ⟨100, 7, 4, 6⟩)) =
      Node.centerX (stackPlaceSelf [.center] (.widget ⟨0, 0, 10, 10⟩)) ∧
    Node.centerY (stackPlace [.center] (stackPlaceSelf [.center] (.widget ⟨0, 0, 10, 10⟩))
        (.widget ⟨100, 7, 4, 6⟩)) =
      Node.centerY (stackPlaceSelf [.center] (.widget ⟨0, 0, 10, 10⟩)) :=
  claim_c6_stacked_centers (.widget ⟨0, 0, 10, 10⟩) (.widget ⟨100, 7, 4, 6⟩) (by decide)

/-- C7: assigning `v` to a layout's `x` (or `y`) shifts every child's `x`
(or `y`) by the delta `v` minus the layout's previous `x` (or `y`), after
which the derived coordinate equals `v` and every child's size and
other-axis coordinate are unchanged. -/
theorem claim_c7_layout_move (n : Node) (v : Int) (hL : n.isLayout = true)
    (hw : n.wf = true) :
    xsOf (Node.children (Node.setX v n)) =
      (xsOf n.children).map (· + (v - Node.x n)) ∧
    ysOf (Node.children (Node.setX v n)) = ysOf n.children ∧
    wsOf (Node.children (Node.setX v n)) = wsOf n.children ∧
    hsOf (Node.children (Node.setX v n)) = hsOf n.children ∧
    Node.x (Node.setX v n) = v ∧
    ysOf (Node.children (Node.setY v n)) =
      (ysOf n.children).map (· + (v - Node.y n)) ∧
    xsOf (Node.children (Node.setY v n)) = xsOf n.children ∧
    wsOf (Node.children (Node.setY v n)) = wsOf n.children ∧
    hsOf (Node.children (Node.setY v n)) = hsOf n.children ∧
    Node.y (Node.setY v n) = v := by
  have hxv := (setX_spec n hw v).1
  have hyv := (setY_spec n hw v).1
  cases n with
  | widget wg => simp [Node.isLayout] at hL
  | hbox s a cs =>
      cases cs with
      | nil => simp [Node.wf] at hw
      | cons c r =>
        rw [wf_hbox_cons] at hw
        obtain ⟨p1, p2, p3, p4⟩ := shiftX_proj (.cons c r) hw (v - minXD (.cons c r))
        obtain ⟨q1, q2, q3, q4⟩ := shiftY_proj (.cons c r) hw (v - minYD (.cons c r))
        exact ⟨by simpa [Node.setX, Node.children] using p1,
               by simpa [Node.setX, Node.children] using p2,
               by simpa [Node.setX, Node.children] using p3,
               by simpa [Node.setX, Node.children] using p4, hxv,
               by simpa [Node.setY, Node.children] using q1,
               by simpa [Node.setY, Node.children] using q2,
               by simpa [Node.setY, Node.children] using q3,
               by simpa [Node.setY, Node.children] using q4, hyv⟩
  | vbox s a cs =>
      cases cs with
      | nil => simp [Node.wf] at hw
      | cons c r =>
        rw [wf_vbox_cons] at hw
        obtain ⟨p1, p2, p3, p4⟩ := shiftX_proj (.cons c r) hw (v - minXD (.cons c r))
        obtain ⟨q1, q2, q3, q4⟩ := shiftY_proj (.cons c r) hw (v - minYD (.cons c r))
        exact ⟨by simpa [Node.setX, Node.children] using p1,
               by simpa [Node.setX, Node.children] using p2,
               by simpa [Node.setX, Node.children] using p3,
               by simpa [Node.setX, Node.children] using p4, hxv,
               by simpa [Node.setY, Node.children] using q1,
               by simpa [Node.setY, Node.children] using q2,
               by simpa [Node.setY, Node.children] using q3,
               by simpa [Node.setY, Node.children] using q4, hyv⟩
  | stacked al cs =>
      cases cs with
      | nil => simp [Node.wf] at hw
      | cons c r =>
        rw [wf_stacked_cons] at hw
        obtain ⟨p1, p2, p3, p4⟩ := shiftX_proj (.cons c r) hw (v - minXD (.cons c r))
        obtain ⟨q1, q2, q3, q4⟩ := shiftY_proj (.cons c r) hw (v - minYD (.cons c r))
        exact ⟨by simpa [Node.setX, Node.children] using p1,
               by simpa [Node.setX, Node.children] using p2,
               by simpa [Node.setX, Node.children] using p3,
               by simpa [Node.setX, Node.children] using p4, hxv,
               by simpa [Node.setY, Node.children] using q1,
               by simpa [Node.setY, Node.children] using q2,
               by simpa [Node.setY, Node.children] using q3,
               by simpa [Node.setY, Node.children] using q4, hyv⟩

theorem claim_c7_witness :
    xsOf (Node.children (Node.setX 10 (Node.hbox 5 .top (.cons (.widget ⟨1, 2, 3, 4⟩) .nil)))) =
      (xsOf (Node.children (Node.hbox 5 .top (.cons (.widget ⟨1, 2, 3, 4⟩) .nil)))).map
        (· + (10 - Node.x (Node.hbox 5 .top (.cons (.widget ⟨1, 2, 3, 4⟩) .nil)))) ∧
    ysOf (Node.children (Node.setX 10 (Node.hbox 5 .top (.cons (.widget ⟨1, 2, 3, 4⟩) .nil)))) =
      ysOf (Node.children (Node.hbox 5 .top (.cons (.widget ⟨1, 2, 3, 4⟩) .nil))) ∧
    wsOf (Node.children (Node.setX 10 (Node.hbox 5 .top (.cons (.widget ⟨1, 2, 3, 4⟩) .nil)))) =
      wsOf (Node.children (Node.hbox 5 .top (.cons (.widget ⟨1, 2, 3, 4⟩) .nil))) ∧
    hsOf (Node.children (Node.setX 10 (Node.hbox 5 .top (.cons (.widget ⟨1, 2, 3, 4⟩) .nil)))) =
      hsOf (Node.children (Node.hbox 5 .top (.cons (.widget ⟨1, 2, 3, 4⟩) .nil))) ∧
    Node.x (Node.setX 10 (Node.hbox 5 .top (.cons (.widget ⟨1, 2, 3, 4⟩) .nil))) = 10 ∧
    ysOf (Node.children (Node.setY 10 (Node.hbox 5 .top (.cons (.widget ⟨1, 2, 3, 4⟩) .nil)))) =
      (ysOf (Node.children (Node.hbox 5 .top (.cons (.widget ⟨1, 2, 3, 4⟩) .nil)))).map
        (· + (10 - Node.y (Node.hbox 5 .top (.cons (.widget ⟨1, 2, 3, 4⟩) .nil)))) ∧
    xsOf (Node.children (Node.setY 10 (Node.hbox 5 .top (.cons (.widget ⟨1, 2, 3, 4⟩) .nil)))) =
      xsOf (Node.children (Node.hbox 5 .top (.cons (.widget ⟨1, 2, 3, 4⟩) .nil))) ∧
    wsOf (Node.children (Node.setY 10 (Node.hbox 5 .top (.cons (.widget ⟨1, 2, 3, 4⟩) .nil)))) =
      wsOf (Node.children (Node.hbox 5 .top (.cons (.widget ⟨1, 2, 3, 4⟩) .nil))) ∧
    hsOf (Node.children (Node.setY 10 (Node.hbox 5 .top (.cons (.widget ⟨1, 2, 3, 4⟩) .nil)))) =
      hsOf (Node.children (Node.hbox 5 .top (.cons (.widget ⟨1, 2, 3, 4⟩) .nil))) ∧
    Node.y (Node.setY 10 (Node.hbox 5 .top (.cons (.widget ⟨1, 2, 3, 4⟩) .nil))) = 10 :=
  claim_c7_layout_move (Node.hbox 5 .top (.cons (.widget ⟨1, 2, 3, 4⟩) .nil)) 10
    (by decide) (by decide)

/-- C8: with a parseable alignment outside {Top, Bottom, Center} (i.e. Left
or Right), `HBoxLayout.shuffle` does not fail: the warning condition holds,
every child keeps its prior `y`, and horizontal placement still follows the
cursor rule. -/
theorem claim_c8_hbox_graceful (s : Int) (a : AlignmentChoice) (cs : NodeList)
    (hA : a = .left ∨ a = .right) (h : listWf cs = true) :
    hboxWarns a = true ∧
    Node.shuffle (.hbox s a cs) = .ok (.hbox s a (hboxShuffle s a cs)) ∧
    ysOf (hboxShuffle s a cs) = ysOf cs ∧
    xsOf (hboxShuffle s a cs) = specCursorXs (minXD cs) s (wsOf cs) := by
  refine ⟨?_, by simp [Node.shuffle], ?_, ?_⟩
  · rcases hA with h' | h' <;> subst h' <;> decide
  · unfold hboxShuffle
    rw [hboxLoop_ys s a hA cs .nil (minXD cs) (by simp [listWf]) h]
    simp [ysOf]
  · unfold hboxShuffle
    rw [(hboxLoop_spec s a cs .nil (minXD cs) (by simp [listWf]) h).1]
    simp [xsOf]

theorem claim_c8_witness :
    hboxWarns .left = true ∧
    Node.shuffle (.hbox 5 .left (.cons (.widget ⟨0, 9, 10, 10⟩)
        (.cons (.widget ⟨0, 20, 20, 10⟩) .nil))) =
      .ok (.hbox 5 .left (hboxShuffle 5 .left (.cons (.widget ⟨0, 9, 10, 10⟩)
        (.cons (.widget ⟨0, 20, 20, 10⟩) .nil)))) ∧
    ysOf (hboxShuffle 5 .left (.cons (.widget ⟨0, 9, 10, 10⟩)
        (.cons (.widget ⟨0, 20, 20, 10⟩) .nil))) =
      ysOf (.cons (.widget ⟨0, 9, 10, 10⟩) (.cons (.widget ⟨0, 20, 20, 10⟩) .nil)) ∧
    xsOf (hboxShuffle 5 .left (.cons (.widget ⟨0, 9, 10, 10⟩)
        (.cons (.widget ⟨0, 20, 20, 10⟩) .nil))) =
      specCursorXs
        (minXD (.cons (.widget ⟨0, 9, 10, 10⟩) (.cons (.widget ⟨0, 20, 20, 10⟩) .nil))) 5
        (wsOf (.cons (.widget ⟨0, 9, 10, 10⟩) (.cons (.widget ⟨0, 20, 20, 10⟩) .nil))) :=
  claim_c8_hbox_graceful 5 .left
    (.cons (.widget ⟨0, 9, 10, 10⟩) (.cons (.widget ⟨0, 20, 20, 10⟩) .nil))
    (Or.inl rfl) (by decide)

/-- C9: on a layout with zero children the derived accessors `x`, `y`, `w`,
`h` all return `0`, and assigning `x` or `y` is a silent no-op, for all
three layout kinds. -/
theorem claim_c9_empty_layout (s v : Int) (a : AlignmentChoice)
    (al : List AlignmentChoice) :
    Node.x (.hbox s a .nil) = 0 ∧ Node.y (.hbox s a .nil) = 0 ∧
    Node.w (.hbox s a .nil) = 0 ∧ Node.h (.hbox s a .nil) = 0 ∧
    Node.setX v (.hbox s a .nil) = .hbox s a .nil ∧
    Node.setY v (.hbox s a .nil) = .hbox s a .nil ∧
    Node.x (.vbox s a .nil) = 0 ∧ Node.y (.vbox s a .nil) = 0 ∧
    Node.w (.vbox s a .nil) = 0 ∧ Node.h (.vbox s a .nil) = 0 ∧
    Node.setX v (.vbox s a .nil) = .vbox s a .nil ∧
    Node.setY v (.vbox s a .nil) = .vbox s a .nil ∧
    Node.x (.stacked al .nil) = 0 ∧ Node.y (.stacked al .nil) = 0 ∧
    Node.w (.stacked al .nil) = 0 ∧ Node.h (.stacked al .nil) = 0 ∧
    Node.setX v (.stacked al .nil) = .stacked al .nil ∧
    Node.setY v (.stacked al .nil) = .stacked al .nil := by
  simp [Node.x, Node.y, Node.w, Node.h, Node.setX, Node.setY,
        minXD, minYD, shiftX, shiftY]

/-- C10: `StackedLayout.shuffle` reads `self.widgets[0]` unguarded, so on
zero children it raises `IndexError` and on one or more children it
succeeds, while `HBoxLayout.shuffle` and `VBoxLayout.shuffle` complete
without error on zero children. -/
theorem claim_c10_empty_shuffle :
    (∀ al : List AlignmentChoice, Node.shuffle (.stacked al .nil) = .error .indexError) ∧
    (∀ (al : List AlignmentChoice) (c : Node) (r : NodeList),
        (stackedShuffle al (.cons c r)).isSome = true) ∧
    (∀ (s : Int) (a : AlignmentChoice), Node.shuffle (.hbox s a .nil) = .ok (.hbox s a .nil)) ∧
    (∀ (s : Int) (a : AlignmentChoice), Node.shuffle (.vbox s a .nil) = .ok (.vbox s a .nil)) :=
  ⟨fun al => by simp [Node.shuffle, stackedShuffle],
   fun al c r => by simp [stackedShuffle],
   fun s a => by simp [Node.shuffle, hboxShuffle, hboxLoop],
   fun s a => by simp [Node.shuffle, vboxShuffle, vboxLoop]⟩
